import Mathlib

/-!
Bedfellows scoring pipeline: a shallow embedding.

A verification development for the Bedfellows FEC relationship-scoring
pipeline.  The relations of the program (contribution records, committee
records, the derived sub-score tables and the final-score table) are
modelled as Lean lists of record structures, and each SQL aggregation
pass of `bedfellows/calculators/overall.py` and the loaders of
`bedfellows/models.py` is translated into a pure function on those lists.

SQL conventions modelled explicitly:
* nullable columns are `Option` values;
* `GROUP BY` is rendered as "deduplicated key list, one aggregate row per
  key computed over the rows matching that key" (SQL groups `NULL` keys
  together, which `Option` equality also does);
* join conditions (`ON a = b`) use SQL equality, which is never satisfied
  by `NULL` operands (`sqlEqS`);
* `x NOT IN (...)` uses SQL three-valued logic: with an empty list it is
  true, with a non-empty list it is true only when `x` is non-`NULL`,
  differs from every listed value, and no listed value is `NULL`
  (`sqlNotIn`);
* division yields `NULL` on a zero or `NULL` divisor (`sqlDivIntQ`,
  `sqlDivQ`), and `COALESCE(e, 0)` replaces `NULL` by `0`
  (`sqlCoalesceQ`);
* `SUM` / `MAX` / `MIN` ignore `NULL` inputs and are `NULL` on an empty
  set of non-`NULL` inputs (`sqlSum`, `listMaxInt`, `listMinInt`).

Dates are modelled as day numbers (`Int`), so MySQL
`DATEDIFF(MAX(date), MIN(date))` becomes `max - min`.  Monetary amounts
are integers (the raw FEC `amount` column is integral); scores are exact
rationals `ℚ`, standing in for the decimal arithmetic of the database.
-/

/-- One row of the (raw or filtered) contributions relation, restricted to
the columns the scoring pipeline reads.  `fec_contributions` keeps exactly
these columns of `fec_committee_contributions`
(`bedfellows/models.py`, `FecContributions`). -/
structure ContributionRow where
  fec_committee_id : Option String
  report_type : Option String
  contributor_name : Option String
  date : Option Int
  amount : Option Int
  other_id : Option String
  recipient_name : Option String
  cycle : Option String
deriving DecidableEq, Repr

/-- A committee master row as stored (`bedfellows/models.py`,
`FecCommittees`), restricted to the columns the filter stage reads. -/
structure CommitteeRow where
  fecid : Option String
  committee_type : Option String
  is_super_pac : Bool
deriving DecidableEq, Repr

/-- A committee row as read from the pipe-delimited FEC master file,
before the loader derives `is_super_pac`. -/
structure CommitteeCsvRow where
  fecid : Option String
  committee_type : Option String
deriving DecidableEq, Repr

/-- `FecCommittees.load_from_csv` row transformation: the Super PAC flag
is set exactly when the committee-type code is the single character `O`
(`bedfellows/models.py` line 254). -/
def load_committee_row (r : CommitteeCsvRow) : CommitteeRow :=
  { fecid := r.fecid
    committee_type := r.committee_type
    is_super_pac := decide (r.committee_type = some "O") }

/-- The Super PAC id list: `SELECT fecid FROM fec_committees WHERE
is_super_pac = TRUE` (`bedfellows/models.py` lines 372-375).  Entries may
be `none` because `fecid` is nullable. -/
def superPacIds (committees : List CommitteeRow) : List (Option String) :=
  (committees.filter (fun c => c.is_super_pac)).map (fun c => c.fecid)

/-- SQL `x NOT IN (list)` under three-valued logic, `true` only when the
predicate is TRUE (not NULL): an empty list gives TRUE; otherwise a NULL
`x` or a NULL list element gives NULL, and membership gives FALSE. -/
def sqlNotIn (x : Option String) (s : List (Option String)) : Bool :=
  if s.isEmpty then true
  else
    match x with
    | none => false
    | some v => decide (some v ∉ s ∧ none ∉ s)

/-- SQL equality in a join condition: TRUE only for two equal non-NULL
values. -/
def sqlEqS : Option String → Option String → Bool
  | some a, some b => decide (a = b)
  | _, _ => false

/-- The distinct grouping keys of a `GROUP BY`, in order of last
occurrence; duplicates are folded away structurally. -/
def dedupKeys {κ : Type} [DecidableEq κ] : List κ → List κ
  | [] => []
  | k :: ks =>
    let d := dedupKeys ks
    if k ∈ d then d else k :: d

/-- `FecContributions.load_from_committee_contributions`
(`bedfellows/models.py` lines 361-400): keep the raw rows whose
contributor id and recipient id both pass `NOT IN (super PAC ids)`. -/
def load_from_committee_contributions (committees : List CommitteeRow)
    (raw : List ContributionRow) : List ContributionRow :=
  let s := superPacIds committees
  raw.filter (fun r => sqlNotIn r.fec_committee_id s && sqlNotIn r.other_id s)

/-- Fold computing SQL `MAX` over the non-NULL inputs. -/
def listMaxInt : List Int → Option Int
  | [] => none
  | x :: xs =>
    match listMaxInt xs with
    | none => some x
    | some m => some (max x m)

/-- Fold computing SQL `MIN` over the non-NULL inputs. -/
def listMinInt : List Int → Option Int
  | [] => none
  | x :: xs =>
    match listMinInt xs with
    | none => some x
    | some m => some (min x m)

/-- SQL `SUM` over a nullable column: NULLs are ignored; the sum of no
non-NULL values is NULL. -/
def sqlSum (xs : List (Option Int)) : Option Int :=
  match xs.filterMap id with
  | [] => none
  | v :: vs => some ((v :: vs).foldl (· + ·) 0)

/-- SQL division of two nullable integer expressions as exact decimal:
NULL when either operand is NULL or the divisor is zero. -/
def sqlDivIntQ : Option Int → Option Int → Option ℚ
  | some a, some b => if b = 0 then none else some ((a : ℚ) / (b : ℚ))
  | _, _ => none

/-- SQL division of two rational expressions: NULL on a zero divisor. -/
def sqlDivQ (a b : ℚ) : Option ℚ :=
  if b = 0 then none else some (a / b)

/-- `COALESCE(e, d)` for a rational expression. -/
def sqlCoalesceQ (x : Option ℚ) (d : ℚ) : ℚ :=
  x.getD d

/-- The `COALESCE(es.amount / es.total_by_pac, 0)` exclusivity expression
of the combine query (`overall.py` lines 438 and 444). -/
def exclExpr (amt tot : Option Int) : ℚ :=
  sqlCoalesceQ (sqlDivIntQ amt tot) 0

/-- One row of `total_donated_by_contributor` (`overall.py` lines
147-153). -/
structure TotalRow where
  fec_committee_id : Option String
  contributor_name : Option String
  total_by_PAC : Option Int
deriving DecidableEq, Repr

/-- Grouping key of the contributor-totals query: `GROUP BY
fec_committee_id, contributor_name`. -/
def totalKey (r : ContributionRow) : Option String × Option String :=
  (r.fec_committee_id, r.contributor_name)

/-- The aggregate row of `total_donated_by_contributor` for one grouping
key: `SELECT fec_committee_id, contributor_name, SUM(amount)`. -/
def totalRowFor (fc : List ContributionRow) (k : Option String × Option String) :
    TotalRow :=
  { fec_committee_id := k.1
    contributor_name := k.2
    total_by_PAC :=
      sqlSum ((fc.filter (fun r => decide (totalKey r = k))).map (fun r => r.amount)) }

/-- Step 1 of `compute_exclusivity_scores` (`overall.py` lines 139-154):
total donated, grouped by contributor id and name. -/
def compute_total_donated (fc : List ContributionRow) : List TotalRow :=
  (dedupKeys (fc.map totalKey)).map (totalRowFor fc)

/-- One row of `exclusivity_scores` (`overall.py` lines 168-183). -/
structure ExclusivityRow where
  fec_committee_id : Option String
  contributor_name : Option String
  total_by_pac : Option Int
  other_id : Option String
  recipient_name : Option String
  amount : Option Int
deriving DecidableEq, Repr

/-- The inner join `fec_contributions JOIN total_donated_by_contributor
ON fec_committee_id AND contributor_name` of the exclusivity query. -/
def exclusivityJoin (fc : List ContributionRow) (td : List TotalRow) :
    List (ContributionRow × TotalRow) :=
  fc.flatMap (fun r =>
    (td.filter (fun t =>
      sqlEqS r.fec_committee_id t.fec_committee_id &&
      sqlEqS r.contributor_name t.contributor_name)).map (fun t => (r, t)))

/-- Grouping key of the exclusivity query: `GROUP BY fc.fec_committee_id,
fc.other_id, fc.contributor_name, fc.recipient_name, td.total_by_PAC`. -/
def exclusivityKey (p : ContributionRow × TotalRow) :
    Option String × Option String × Option String × Option String × Option Int :=
  (p.1.fec_committee_id, p.1.other_id, p.1.contributor_name,
   p.1.recipient_name, p.2.total_by_PAC)

/-- The aggregate row of `exclusivity_scores` for one grouping key:
key columns plus `SUM(fc.amount)`. -/
def exclusivityRowFor (pairs : List (ContributionRow × TotalRow))
    (k : Option String × Option String × Option String × Option String × Option Int) :
    ExclusivityRow :=
  { fec_committee_id := k.1
    other_id := k.2.1
    contributor_name := k.2.2.1
    recipient_name := k.2.2.2.1
    total_by_pac := k.2.2.2.2
    amount :=
      sqlSum ((pairs.filter (fun p => decide (exclusivityKey p = k))).map
        (fun p => p.1.amount)) }

/-- Step 2 of `compute_exclusivity_scores` (`overall.py` lines 159-184):
per-pair summed amount joined with the contributor total. -/
def compute_exclusivity_scores (fc : List ContributionRow) : List ExclusivityRow :=
  let pairs := exclusivityJoin fc (compute_total_donated fc)
  (dedupKeys (pairs.map exclusivityKey)).map (exclusivityRowFor pairs)

/-- One row of `unnormalized_length_scores` (`overall.py` lines 312-327);
`length_score` here is the raw `DATEDIFF(MAX(date), MIN(date))`. -/
structure UnnormalizedLengthRow where
  fec_committee_id : Option String
  contributor_name : Option String
  other_id : Option String
  recipient_name : Option String
  max_date : Int
  min_date : Int
  length_score : Int
deriving DecidableEq, Repr

/-- Grouping key of the length query: `GROUP BY fec_committee_id,
other_id, contributor_name, recipient_name`. -/
def lengthKey (r : ContributionRow) :
    Option String × Option String × Option String × Option String :=
  (r.fec_committee_id, r.other_id, r.contributor_name, r.recipient_name)

/-- `WHERE date IS NOT NULL` of the length query. -/
def datedRows (fc : List ContributionRow) : List ContributionRow :=
  fc.filter (fun r => r.date.isSome)

/-- The aggregate row of `unnormalized_length_scores` for one grouping
key: `MAX(date)`, `MIN(date)` and their day difference. -/
def unnormalizedLengthRowFor (dated : List ContributionRow)
    (k : Option String × Option String × Option String × Option String) :
    UnnormalizedLengthRow :=
  let ds := (dated.filter (fun r => decide (lengthKey r = k))).filterMap
    (fun r => r.date)
  { fec_committee_id := k.1
    contributor_name := k.2.2.1
    other_id := k.2.1
    recipient_name := k.2.2.2
    max_date := (listMaxInt ds).getD 0
    min_date := (listMinInt ds).getD 0
    length_score := (listMaxInt ds).getD 0 - (listMinInt ds).getD 0 }

/-- The grouped length query (`overall.py` lines 312-330): dated rows
grouped by pair (with names), kept only under `HAVING COUNT(*) > 1`. -/
def compute_unnormalized_length (fc : List ContributionRow) :
    List UnnormalizedLengthRow :=
  let dated := datedRows fc
  ((dedupKeys (dated.map lengthKey)).filter (fun k =>
    decide (1 < (dated.filter (fun r => decide (lengthKey r = k))).length))).map
    (unnormalizedLengthRowFor dated)

/-- The Python fallback `result[0] if result and result[0] else 1`
(`overall.py` line 335): the stored max length, replaced by `1` when the
query returned NULL (empty table) or `0` (falsy). -/
def max_length_value (rows : List UnnormalizedLengthRow) : Int :=
  match listMaxInt (rows.map (fun r => r.length_score)) with
  | none => 1
  | some m => if m = 0 then 1 else m

/-- One row of `length_scores` (`overall.py` lines 346-358);
`length_score` is now normalized. -/
structure LengthScoreRow where
  fec_committee_id : Option String
  contributor_name : Option String
  other_id : Option String
  recipient_name : Option String
  max_date : Int
  min_date : Int
  length_score : ℚ
deriving DecidableEq, Repr

/-- `compute_length_scores` (`overall.py` lines 299-362): the raw spans
divided by the stored max length. -/
def compute_length_scores (fc : List ContributionRow) : List LengthScoreRow :=
  let u := compute_unnormalized_length fc
  let m := max_length_value u
  u.map (fun r =>
    { fec_committee_id := r.fec_committee_id
      contributor_name := r.contributor_name
      other_id := r.other_id
      recipient_name := r.recipient_name
      max_date := r.max_date
      min_date := r.min_date
      length_score := (r.length_score : ℚ) / (m : ℚ) })

/-- One row of `final_scores` (`overall.py` lines 427-454 insert;
`bedfellows/models.py`, `FinalScores`).  `final_score` stays nullable
because the SQL expression divides by the configured weight sum. -/
structure FinalScoreRow where
  fec_committee_id : Option String
  contributor_name : Option String
  other_id : Option String
  recipient_name : Option String
  count : Nat
  exclusivity_score : ℚ
  report_type_score : ℚ
  periodicity_score : ℚ
  maxed_out_score : ℚ
  length_score : ℚ
  race_focus_score : ℚ
  final_score : Option ℚ
deriving DecidableEq, Repr

/-- `LEFT JOIN` matches of one left row: the matching rows, or a single
NULL row when none match. -/
def leftMatches {α : Type} (rows : List α) (p : α → Bool) : List (Option α) :=
  let m := rows.filter p
  if m.isEmpty then [none] else m.map some

/-- One row of the doubly left-joined relation the combine query
aggregates over. -/
structure FinalJoinRow where
  c : ContributionRow
  es : Option ExclusivityRow
  ls : Option LengthScoreRow
deriving DecidableEq, Repr

/-- `fec_contributions LEFT JOIN exclusivity_scores ON (fec_committee_id,
other_id) LEFT JOIN length_scores ON (fec_committee_id, other_id)`
(`overall.py` lines 446-452). -/
def final_join (fc : List ContributionRow) (es : List ExclusivityRow)
    (ls : List LengthScoreRow) : List FinalJoinRow :=
  fc.flatMap (fun r =>
    (leftMatches es (fun e =>
      sqlEqS r.fec_committee_id e.fec_committee_id &&
      sqlEqS r.other_id e.other_id)).flatMap (fun e =>
        (leftMatches ls (fun l =>
          sqlEqS r.fec_committee_id l.fec_committee_id &&
          sqlEqS r.other_id l.other_id)).map (fun l =>
            { c := r, es := e, ls := l })))

/-- The grouping key of the combine query as a record: `GROUP BY
fc.fec_committee_id, fc.other_id, fc.contributor_name,
fc.recipient_name, es.amount, es.total_by_pac, ls.length_score`
(`overall.py` lines 453-454). -/
structure FinalKey where
  fec_committee_id : Option String
  other_id : Option String
  contributor_name : Option String
  recipient_name : Option String
  es_amount : Option Int
  es_total : Option Int
  ls_length : Option ℚ
deriving DecidableEq, Repr

/-- The grouping key of one joined row. -/
def finalKey (j : FinalJoinRow) : FinalKey :=
  { fec_committee_id := j.c.fec_committee_id
    other_id := j.c.other_id
    contributor_name := j.c.contributor_name
    recipient_name := j.c.recipient_name
    es_amount := j.es.bind (fun e => e.amount)
    es_total := j.es.bind (fun e => e.total_by_pac)
    ls_length := j.ls.map (fun l => l.length_score) }

/-- The aggregate row of `final_scores` for one grouping key: `COUNT(*)`,
the coalesced exclusivity and length scores, literal zeros for the four
unimplemented sub-scores, and the weighted final score
`(excl * w_excl + len * w_len) / (w_excl + w_len)`. -/
def finalRowFor (joined : List FinalJoinRow) (wExcl wLen : ℚ)
    (k : FinalKey) : FinalScoreRow :=
  let excl := exclExpr k.es_amount k.es_total
  let len := sqlCoalesceQ k.ls_length 0
  { fec_committee_id := k.fec_committee_id
    other_id := k.other_id
    contributor_name := k.contributor_name
    recipient_name := k.recipient_name
    count := (joined.filter (fun j => decide (finalKey j = k))).length
    exclusivity_score := excl
    report_type_score := 0
    periodicity_score := 0
    maxed_out_score := 0
    length_score := len
    race_focus_score := 0
    final_score := sqlDivQ (excl * wExcl + len * wLen) (wExcl + wLen) }

/-- `compute_final_scores` (`overall.py` lines 385-463): the combine
query over the doubly left-joined relation. -/
def compute_final_scores (fc : List ContributionRow) (es : List ExclusivityRow)
    (ls : List LengthScoreRow) (wExcl wLen : ℚ) : List FinalScoreRow :=
  let joined := final_join fc es ls
  (dedupKeys (joined.map finalKey)).map (finalRowFor joined wExcl wLen)

/-- The combine stage as run by the pipeline: its exclusivity and length
inputs are the freshly computed sub-score relations. -/
def run_final_scores (fc : List ContributionRow) (wExcl wLen : ℚ) :
    List FinalScoreRow :=
  compute_final_scores fc (compute_exclusivity_scores fc)
    (compute_length_scores fc) wExcl wLen

/-- The pair key of the final relation: one score row per distinct
`(fec_committee_id, other_id)` is the spec guarantee under scrutiny. -/
def pairKey (r : ContributionRow) : Option String × Option String :=
  (r.fec_committee_id, r.other_id)

/-- The database state the pipeline owns: the two base relations and
every derived relation the modelled stages write. -/
structure DBState where
  fecCommitteeContributions : List ContributionRow
  fecCommittees : List CommitteeRow
  fecContributions : List ContributionRow
  totalDonated : List TotalRow
  exclusivityScores : List ExclusivityRow
  unnormalizedLength : List UnnormalizedLengthRow
  maxLengthScore : Int
  lengthScores : List LengthScoreRow
  finalScores : List FinalScoreRow
deriving DecidableEq, Repr

/-- `OverallCalculator.setup` (`overall.py` lines 71-91): populate the
filtered relation only when it is empty, otherwise keep it. -/
def pipeline_setup (s : DBState) : DBState :=
  if s.fecContributions.isEmpty then
    { s with
      fecContributions :=
        load_from_committee_contributions s.fecCommittees
          s.fecCommitteeContributions }
  else s

/-- `OverallCalculator.compute_scores` (`overall.py` lines 93-128) for
the stages with substantive SQL: setup, then drop-and-rebuild every
derived relation from the filtered contributions. -/
def run_overall_pipeline (wExcl wLen : ℚ) (s : DBState) : DBState :=
  let s1 := pipeline_setup s
  let fc := s1.fecContributions
  let es := compute_exclusivity_scores fc
  let ul := compute_unnormalized_length fc
  let ls := compute_length_scores fc
  { s1 with
    totalDonated := compute_total_donated fc
    exclusivityScores := es
    unnormalizedLength := ul
    maxLengthScore := max_length_value ul
    lengthScores := ls
    finalScores := compute_final_scores fc es ls wExcl wLen }

/-- `compute_exclusivity_scores` of the legacy `overall_with_orm.py`
(lines 33-68): the contributor totals are inserted into
`total_donated_by_contributor` twice by two identical `insert_from`
calls, with no drop or rebuild of the table. -/
def orm_compute_exclusivity_scores (s : DBState) : DBState :=
  { s with
    totalDonated :=
      s.totalDonated ++ compute_total_donated s.fecContributions ++
        compute_total_donated s.fecContributions }

/-- The `bedfellows compute` CLI command (`cli.py` lines 486-515): it
refuses to run the calculator when the filtered contribution relation is
empty, surfacing a precondition failure instead. -/
def compute_command (wExcl wLen : ℚ) (s : DBState) : Except String DBState :=
  if s.fecContributions.isEmpty then
    Except.error "No contribution data found"
  else
    Except.ok (run_overall_pipeline wExcl wLen s)

/-- Functional dependency: the contributor name is determined by the
contributor id within a relation (one master-file name per committee). -/
def contributorNameFD (fc : List ContributionRow) : Prop :=
  ∀ r1 ∈ fc, ∀ r2 ∈ fc, r1.fec_committee_id = r2.fec_committee_id →
    r1.contributor_name = r2.contributor_name

/-- Functional dependency: the recipient name is determined by the
recipient id within a relation. -/
def recipientNameFD (fc : List ContributionRow) : Prop :=
  ∀ r1 ∈ fc, ∀ r2 ∈ fc, r1.other_id = r2.other_id →
    r1.recipient_name = r2.recipient_name

instance (fc : List ContributionRow) : Decidable (contributorNameFD fc) := by
  unfold contributorNameFD
  infer_instance

instance (fc : List ContributionRow) : Decidable (recipientNameFD fc) := by
  unfold recipientNameFD
  infer_instance

/-- The single optional exclusivity row that the LEFT JOIN of one pair can see. -/
def esLookup (es : List ExclusivityRow) (cid oid : Option String) :
    Option ExclusivityRow :=
  (es.filter (fun e => sqlEqS cid e.fec_committee_id &&
    sqlEqS oid e.other_id)).head?

/-- The single optional length row that the LEFT JOIN of one pair can see. -/
def lsLookup (ls : List LengthScoreRow) (cid oid : Option String) :
    Option LengthScoreRow :=
  (ls.filter (fun l => sqlEqS cid l.fec_committee_id &&
    sqlEqS oid l.other_id)).head?

/-- The combine-stage joined row for one filtered-contribution row when
the joins cannot fan out. -/
def canonicalJoinRow (es : List ExclusivityRow) (ls : List LengthScoreRow)
    (r : ContributionRow) : FinalJoinRow :=
  { c := r
    es := esLookup es r.fec_committee_id r.other_id
    ls := lsLookup ls r.fec_committee_id r.other_id }

/-! ## Concrete inputs

Small concrete relations used to witness and refute the claims: the spec
scenario (contributor `C1` gives `$600` to `R1` and `$400` to `R2` on one
date), a refund scenario, a zero-span scenario, a conflicting-names
scenario, and a Super-PAC committee list. -/

/-- Scenario row: `C1` gives `$600` to `R1`. -/
def scRow1 : ContributionRow :=
  { fec_committee_id := some "C1", report_type := some "Q1",
    contributor_name := some "ALPHA PAC", date := some 100,
    amount := some 600, other_id := some "R1",
    recipient_name := some "REC ONE", cycle := some "2016" }

/-- Scenario row: `C1` gives `$400` to `R2`. -/
def scRow2 : ContributionRow :=
  { fec_committee_id := some "C1", report_type := some "Q1",
    contributor_name := some "ALPHA PAC", date := some 100,
    amount := some 400, other_id := some "R2",
    recipient_name := some "REC TWO", cycle := some "2016" }

/-- The spec scenario relation. -/
def scFc : List ContributionRow := [scRow1, scRow2]

/-- Contributor total of the scenario: `$1000`. -/
def scTotal : TotalRow :=
  { fec_committee_id := some "C1", contributor_name := some "ALPHA PAC",
    total_by_PAC := some 1000 }

/-- Exclusivity row of the scenario pair `(C1, R1)`. -/
def scEs1 : ExclusivityRow :=
  { fec_committee_id := some "C1", contributor_name := some "ALPHA PAC",
    total_by_pac := some 1000, other_id := some "R1",
    recipient_name := some "REC ONE", amount := some 600 }

/-- Exclusivity row of the scenario pair `(C1, R2)`. -/
def scEs2 : ExclusivityRow :=
  { fec_committee_id := some "C1", contributor_name := some "ALPHA PAC",
    total_by_pac := some 1000, other_id := some "R2",
    recipient_name := some "REC TWO", amount := some 400 }

/-- Final row the code computes for `(C1, R1)`: final score `3/10`. -/
def scFinal1 : FinalScoreRow :=
  { fec_committee_id := some "C1", contributor_name := some "ALPHA PAC",
    other_id := some "R1", recipient_name := some "REC ONE", count := 1,
    exclusivity_score := 3/5, report_type_score := 0, periodicity_score := 0,
    maxed_out_score := 0, length_score := 0, race_focus_score := 0,
    final_score := some (3/10) }

/-- Final row the code computes for `(C1, R2)`: final score `1/5`. -/
def scFinal2 : FinalScoreRow :=
  { fec_committee_id := some "C1", contributor_name := some "ALPHA PAC",
    other_id := some "R2", recipient_name := some "REC TWO", count := 1,
    exclusivity_score := 2/5, report_type_score := 0, periodicity_score := 0,
    maxed_out_score := 0, length_score := 0, race_focus_score := 0,
    final_score := some (1/5) }

/-- Refund scenario: `CR` gives `$100` to `R1`. -/
def refundRow1 : ContributionRow :=
  { fec_committee_id := some "CR", report_type := some "Q1",
    contributor_name := some "REFUND PAC", date := some 40,
    amount := some 100, other_id := some "R1",
    recipient_name := some "REC ONE", cycle := some "2016" }

/-- Refund scenario: `CR` is refunded `$50` by `R2` (negative amount). -/
def refundRow2 : ContributionRow :=
  { fec_committee_id := some "CR", report_type := some "Q1",
    contributor_name := some "REFUND PAC", date := some 41,
    amount := some (-50), other_id := some "R2",
    recipient_name := some "REC TWO", cycle := some "2016" }

/-- Refund scenario relation: the contributor total is `$50`, smaller
than the `$100` sent to `R1`. -/
def refundFc : List ContributionRow := [refundRow1, refundRow2]

/-- Exclusivity row of the refund scenario pair `(CR, R1)`: the pair
amount `$100` exceeds the contributor total `$50`. -/
def refundEs1 : ExclusivityRow :=
  { fec_committee_id := some "CR", contributor_name := some "REFUND PAC",
    total_by_pac := some 50, other_id := some "R1",
    recipient_name := some "REC ONE", amount := some 100 }

/-- Exclusivity row of the refund scenario pair `(CR, R2)`. -/
def refundEs2 : ExclusivityRow :=
  { fec_committee_id := some "CR", contributor_name := some "REFUND PAC",
    total_by_pac := some 50, other_id := some "R2",
    recipient_name := some "REC TWO", amount := some (-50) }

/-- Final row the code computes for `(CR, R1)`: exclusivity `2.0`. -/
def refundFinal1 : FinalScoreRow :=
  { fec_committee_id := some "CR", contributor_name := some "REFUND PAC",
    other_id := some "R1", recipient_name := some "REC ONE", count := 1,
    exclusivity_score := 2, report_type_score := 0, periodicity_score := 0,
    maxed_out_score := 0, length_score := 0, race_focus_score := 0,
    final_score := some 1 }

/-- Final row the code computes for `(CR, R2)`: exclusivity `-1.0`. -/
def refundFinal2 : FinalScoreRow :=
  { fec_committee_id := some "CR", contributor_name := some "REFUND PAC",
    other_id := some "R2", recipient_name := some "REC TWO", count := 1,
    exclusivity_score := -1, report_type_score := 0, periodicity_score := 0,
    maxed_out_score := 0, length_score := 0, race_focus_score := 0,
    final_score := some (-(1/2)) }

/-- Hundred-day scenario: `CW` gives to `RW` on day 0. -/
def wRow1 : ContributionRow :=
  { fec_committee_id := some "CW", report_type := some "Q1",
    contributor_name := some "SPAN PAC", date := some 0,
    amount := some 100, other_id := some "RW",
    recipient_name := some "REC W", cycle := some "2016" }

/-- Hundred-day scenario: `CW` gives to `RW` again on day 100. -/
def wRow2 : ContributionRow :=
  { fec_committee_id := some "CW", report_type := some "Q1",
    contributor_name := some "SPAN PAC", date := some 100,
    amount := some 100, other_id := some "RW",
    recipient_name := some "REC W", cycle := some "2016" }

/-- The hundred-day relation: one qualifying pair, span 100 days. -/
def wFc : List ContributionRow := [wRow1, wRow2]

/-- Conflicting-names scenario: the pair `(CD, RD)` under contributor
name `NAME A`. -/
def dupRow1 : ContributionRow :=
  { fec_committee_id := some "CD", report_type := some "Q1",
    contributor_name := some "NAME A", date := some 10,
    amount := some 100, other_id := some "RD",
    recipient_name := some "REC D", cycle := some "2016" }

/-- Conflicting-names scenario: the same pair `(CD, RD)` under
contributor name `NAME B`. -/
def dupRow2 : ContributionRow :=
  { fec_committee_id := some "CD", report_type := some "Q1",
    contributor_name := some "NAME B", date := some 20,
    amount := some 50, other_id := some "RD",
    recipient_name := some "REC D", cycle := some "2016" }

/-- A relation where one id pair appears under two contributor names. -/
def dupFc : List ContributionRow := [dupRow1, dupRow2]

/-- A committee list with one flagged Super PAC `K`. -/
def spCommittees : List CommitteeRow :=
  [{ fecid := some "K", committee_type := some "O", is_super_pac := true }]

/-- A raw contribution row with a NULL contributor id; its recipient is
not a Super PAC. -/
def nullContribRow : ContributionRow :=
  { fec_committee_id := none, report_type := some "Q1",
    contributor_name := some "UNKNOWN", date := some 7,
    amount := some 10, other_id := some "R9",
    recipient_name := some "REC NINE", cycle := some "2016" }

/-- A raw relation holding only the NULL-contributor row. -/
def nullRaw : List ContributionRow := [nullContribRow]

/-- Zero-span scenario: `CZ` gives to `RZ` twice on the same day. -/
def zRow1 : ContributionRow :=
  { fec_committee_id := some "CZ", report_type := some "Q1",
    contributor_name := some "ZERO PAC", date := some 50,
    amount := some 10, other_id := some "RZ",
    recipient_name := some "REC Z", cycle := some "2016" }

/-- Zero-span scenario: the second same-day contribution. -/
def zRow2 : ContributionRow :=
  { fec_committee_id := some "CZ", report_type := some "Q1",
    contributor_name := some "ZERO PAC", date := some 50,
    amount := some 20, other_id := some "RZ",
    recipient_name := some "REC Z", cycle := some "2016" }

/-- The zero-span relation: one qualifying pair whose span is 0 days. -/
def zFc : List ContributionRow := [zRow1, zRow2]

/-- The raw length row of the zero-span pair: extremal dates equal, raw
span `0`. -/
def zU : UnnormalizedLengthRow :=
  { fec_committee_id := some "CZ", contributor_name := some "ZERO PAC",
    other_id := some "RZ", recipient_name := some "REC Z",
    max_date := 50, min_date := 50, length_score := 0 }

/-- The normalized length row of the zero-span pair: score `0`, though
it is the pair with the longest observed span. -/
def zL : LengthScoreRow :=
  { fec_committee_id := some "CZ", contributor_name := some "ZERO PAC",
    other_id := some "RZ", recipient_name := some "REC Z",
    max_date := 50, min_date := 50, length_score := 0 }

/-- A database state with no data loaded at all. -/
def emptyDB : DBState :=
  { fecCommitteeContributions := [], fecCommittees := [],
    fecContributions := [], totalDonated := [], exclusivityScores := [],
    unnormalizedLength := [], maxLengthScore := 1, lengthScores := [],
    finalScores := [] }

/-- A database state as `overall_with_orm.py` sees it: filtered
contributions loaded, every derived relation still empty. -/
def ormDB : DBState :=
  { emptyDB with fecContributions := scFc }

/-! ## Evaluation of the concrete scenarios -/

/-- Contributor totals of the scenario, evaluated. -/
theorem sc_td : compute_total_donated scFc = [scTotal] := by decide

/-- Exclusivity relation of the scenario, evaluated. -/
theorem sc_es : compute_exclusivity_scores scFc = [scEs1, scEs2] := by decide

/-- Length relation of the scenario: no pair has two dated
contributions, so the stage emits nothing. -/
theorem sc_ls : compute_length_scores scFc = [] := by decide

/-- The combine stage on the scenario with both default weights `1.0`:
two rows, final scores `3/10` and `1/5`. -/
theorem sc_final : run_final_scores scFc 1 1 = [scFinal1, scFinal2] := by
  simp only [run_final_scores]
  rw [sc_es, sc_ls]
  simp only [compute_final_scores]
  simp [final_join, leftMatches, sqlEqS, finalKey, finalRowFor, dedupKeys,
    exclExpr, sqlDivIntQ, sqlDivQ, sqlCoalesceQ, List.filterMap, List.foldl,
    scFc, scRow1, scRow2, scEs1, scEs2, scFinal1, scFinal2]
  norm_num

/-! ## Generic lemmas about the SQL building blocks -/

/-- Membership is preserved by grouping-key deduplication. -/
theorem mem_dedupKeys {κ : Type} [DecidableEq κ] :
    ∀ (l : List κ) (a : κ), a ∈ dedupKeys l ↔ a ∈ l := by
  intro l
  induction l with
  | nil => intro a; simp [dedupKeys]
  | cons k ks ih =>
    intro a
    simp only [dedupKeys]
    by_cases hk : k ∈ dedupKeys ks
    · rw [if_pos hk, ih a, List.mem_cons]
      constructor
      · exact Or.inr
      · rintro (h | h)
        · exact h ▸ (ih k).mp hk
        · exact h
    · rw [if_neg hk, List.mem_cons, List.mem_cons, ih a]

/-- The deduplicated key list has no duplicates. -/
theorem nodup_dedupKeys {κ : Type} [DecidableEq κ] :
    ∀ l : List κ, (dedupKeys l).Nodup := by
  intro l
  induction l with
  | nil => simp [dedupKeys]
  | cons k ks ih =>
    simp only [dedupKeys]
    by_cases hk : k ∈ dedupKeys ks
    · simpa [if_pos hk] using ih
    · simp only [if_neg hk]
      exact List.nodup_cons.mpr ⟨hk, ih⟩

/-- Two key functions that induce the same partition of a list produce
deduplicated key lists of equal length. -/
theorem dedupKeys_length_congr {α κ₁ κ₂ : Type} [DecidableEq κ₁]
    [DecidableEq κ₂] (f : α → κ₁) (g : α → κ₂) :
    ∀ l : List α, (∀ a ∈ l, ∀ b ∈ l, (f a = f b ↔ g a = g b)) →
      (dedupKeys (l.map f)).length = (dedupKeys (l.map g)).length := by
  intro l
  induction l with
  | nil => exact fun _ => rfl
  | cons a l ih =>
    intro h
    have hmem : f a ∈ l.map f ↔ g a ∈ l.map g := by
      simp only [List.mem_map]
      constructor
      · rintro ⟨b, hb, hfb⟩
        exact ⟨b, hb, (h b (List.mem_cons_of_mem a hb) a (List.mem_cons_self a l)).mp hfb⟩
      · rintro ⟨b, hb, hgb⟩
        exact ⟨b, hb, (h b (List.mem_cons_of_mem a hb) a (List.mem_cons_self a l)).mpr hgb⟩
    have ih2 := ih (fun x hx y hy => h x (List.mem_cons_of_mem a hx) y (List.mem_cons_of_mem a hy))
    by_cases hf : f a ∈ dedupKeys (l.map f)
    · have hg : g a ∈ dedupKeys (l.map g) :=
        (mem_dedupKeys _ _).mpr (hmem.mp ((mem_dedupKeys _ _).mp hf))
      simp only [List.map_cons, dedupKeys, if_pos hf, if_pos hg]
      exact ih2
    · have hg : g a ∉ dedupKeys (l.map g) := by
        intro hcon
        exact hf ((mem_dedupKeys _ _).mpr (hmem.mpr ((mem_dedupKeys _ _).mp hcon)))
      simp only [List.map_cons, dedupKeys, if_neg hf, if_neg hg,
        List.length_cons]
      exact congrArg Nat.succ ih2

/-- Flat-mapping a singleton-producing function is mapping. -/
theorem flatMap_map_singleton {α β : Type} (f : α → β) :
    ∀ l : List α, (l.flatMap (fun a => [f a])) = l.map f := by
  intro l
  induction l with
  | nil => rfl
  | cons a l ih => simp [List.flatMap_cons, ih]

/-- A duplicate-free list whose elements are pairwise equal has at most
one element. -/
theorem length_le_one_of_nodup_of_all_eq {α : Type} :
    ∀ l : List α, l.Nodup → (∀ a ∈ l, ∀ b ∈ l, a = b) → l.length ≤ 1 := by
  intro l hn hall
  match l with
  | [] => simp
  | [a] => simp
  | a :: b :: t =>
    exfalso
    have hab : a = b := hall a (List.mem_cons_self _ _)
      b (List.mem_cons_of_mem a (List.mem_cons_self _ _))
    have := (List.nodup_cons.mp hn).1
    exact this (hab ▸ List.mem_cons_self b t)

/-- When at most one row matches, the LEFT JOIN contribution of a left
row is the single optional head of the matches. -/
theorem leftMatches_eq_head {α : Type} (rows : List α) (p : α → Bool)
    (h : (rows.filter p).length ≤ 1) :
    leftMatches rows p = [(rows.filter p).head?] := by
  unfold leftMatches
  match hm : rows.filter p with
  | [] => simp
  | [e] => simp
  | e1 :: e2 :: t =>
    exfalso
    rw [hm] at h
    simp only [List.length_cons] at h
    omega

/-- SQL join equality holds exactly between equal non-NULL values. -/
theorem sqlEqS_eq_true {a b : Option String} :
    sqlEqS a b = true ↔ ∃ v, a = some v ∧ b = some v := by
  cases a with
  | none => simp [sqlEqS]
  | some x =>
    cases b with
    | none => simp [sqlEqS]
    | some y =>
      simp only [sqlEqS, decide_eq_true_eq]
      constructor
      · intro h
        exact ⟨x, rfl, by rw [h]⟩
      · rintro ⟨v, hv, hv2⟩
        cases hv
        cases hv2
        rfl

/-- SQL `MAX` is NULL exactly on the empty value list. -/
theorem listMaxInt_eq_none : ∀ l : List Int, listMaxInt l = none ↔ l = [] := by
  intro l
  cases l with
  | nil => simp [listMaxInt]
  | cons x xs =>
    simp only [listMaxInt]
    cases listMaxInt xs <;> simp

/-- SQL `MIN` is NULL exactly on the empty value list. -/
theorem listMinInt_eq_none : ∀ l : List Int, listMinInt l = none ↔ l = [] := by
  intro l
  cases l with
  | nil => simp [listMinInt]
  | cons x xs =>
    simp only [listMinInt]
    cases listMinInt xs <;> simp

/-- A computed SQL `MAX` is attained by a list element. -/
theorem listMaxInt_mem : ∀ (l : List Int) (m : Int),
    listMaxInt l = some m → m ∈ l := by
  intro l
  induction l with
  | nil => intro m h; simp [listMaxInt] at h
  | cons x xs ih =>
    intro m h
    simp only [listMaxInt] at h
    cases hx : listMaxInt xs with
    | none =>
      rw [hx] at h
      simp only [Option.some.injEq] at h
      rw [← h]
      exact List.mem_cons_self _ _
    | some m2 =>
      rw [hx] at h
      simp only [Option.some.injEq] at h
      rcases max_choice x m2 with hc | hc
      · rw [← h, hc]
        exact List.mem_cons_self _ _
      · rw [← h, hc]
        exact List.mem_cons_of_mem x (ih m2 hx)

/-- Every list element is bounded by the computed SQL `MAX`. -/
theorem le_listMaxInt : ∀ (l : List Int) (x : Int), x ∈ l →
    ∀ m : Int, listMaxInt l = some m → x ≤ m := by
  intro l
  induction l with
  | nil => intro x hx; simp at hx
  | cons y ys ih =>
    intro x hx m h
    simp only [listMaxInt] at h
    rcases List.mem_cons.mp hx with hx | hx
    · cases hy : listMaxInt ys with
      | none =>
        rw [hy] at h
        simp only [Option.some.injEq] at h
        rw [hx, ← h]
      | some m2 =>
        rw [hy] at h
        simp only [Option.some.injEq] at h
        rw [hx, ← h]
        exact le_max_left y m2
    · cases hy : listMaxInt ys with
      | none =>
        rw [listMaxInt_eq_none] at hy
        rw [hy] at hx
        simp at hx
      | some m2 =>
        rw [hy] at h
        simp only [Option.some.injEq] at h
        calc x ≤ m2 := ih x hx m2 hy
          _ ≤ m := by rw [← h]; exact le_max_right y m2

/-- A computed SQL `MIN` is attained by a list element. -/
theorem listMinInt_mem : ∀ (l : List Int) (m : Int),
    listMinInt l = some m → m ∈ l := by
  intro l
  induction l with
  | nil => intro m h; simp [listMinInt] at h
  | cons x xs ih =>
    intro m h
    simp only [listMinInt] at h
    cases hx : listMinInt xs with
    | none =>
      rw [hx] at h
      simp only [Option.some.injEq] at h
      rw [← h]
      exact List.mem_cons_self _ _
    | some m2 =>
      rw [hx] at h
      simp only [Option.some.injEq] at h
      rcases min_choice x m2 with hc | hc
      · rw [← h, hc]
        exact List.mem_cons_self _ _
      · rw [← h, hc]
        exact List.mem_cons_of_mem x (ih m2 hx)

/-- The computed SQL `MIN` bounds every list element from below. -/
theorem listMinInt_le : ∀ (l : List Int) (x : Int), x ∈ l →
    ∀ m : Int, listMinInt l = some m → m ≤ x := by
  intro l
  induction l with
  | nil => intro x hx; simp at hx
  | cons y ys ih =>
    intro x hx m h
    simp only [listMinInt] at h
    rcases List.mem_cons.mp hx with hx | hx
    · cases hy : listMinInt ys with
      | none =>
        rw [hy] at h
        simp only [Option.some.injEq] at h
        rw [hx, ← h]
      | some m2 =>
        rw [hy] at h
        simp only [Option.some.injEq] at h
        rw [hx, ← h]
        exact min_le_left y m2
    · cases hy : listMinInt ys with
      | none =>
        rw [listMinInt_eq_none] at hy
        rw [hy] at hx
        simp at hx
      | some m2 =>
        rw [hy] at h
        simp only [Option.some.injEq] at h
        calc m ≤ m2 := by rw [← h]; exact min_le_right y m2
          _ ≤ x := ih x hx m2 hy

/-- SQL `MAX` over a non-empty value list is non-NULL. -/
theorem listMaxInt_isSome (l : List Int) (h : l ≠ []) :
    ∃ m, listMaxInt l = some m := by
  cases hm : listMaxInt l with
  | none => exact absurd ((listMaxInt_eq_none l).mp hm) h
  | some m => exact ⟨m, rfl⟩

/-- SQL `MIN` over a non-empty value list is non-NULL. -/
theorem listMinInt_isSome (l : List Int) (h : l ≠ []) :
    ∃ m, listMinInt l = some m := by
  cases hm : listMinInt l with
  | none => exact absurd ((listMinInt_eq_none l).mp hm) h
  | some m => exact ⟨m, rfl⟩

/-! ## Shape lemmas for the pipeline stages -/


/-- Rows of the contributor-totals relation with equal grouping columns
are equal: the relation has one row per `GROUP BY` key. -/
theorem total_donated_unique {fc : List ContributionRow} {t1 t2 : TotalRow}
    (h1 : t1 ∈ compute_total_donated fc) (h2 : t2 ∈ compute_total_donated fc)
    (hcid : t1.fec_committee_id = t2.fec_committee_id)
    (hname : t1.contributor_name = t2.contributor_name) : t1 = t2 := by
  rcases List.mem_map.mp h1 with ⟨k1, _, e1⟩
  rcases List.mem_map.mp h2 with ⟨k2, _, e2⟩
  subst e1
  subst e2
  simp only [totalRowFor] at hcid hname
  obtain ⟨a1, b1⟩ := k1
  obtain ⟨a2, b2⟩ := k2
  simp only at hcid hname
  subst hcid
  subst hname
  rfl

/-- Membership in the exclusivity join: a contribution row paired with a
totals row it matches. -/
theorem mem_exclusivityJoin {fc : List ContributionRow} {td : List TotalRow}
    {p : ContributionRow × TotalRow} :
    p ∈ exclusivityJoin fc td ↔
      p.1 ∈ fc ∧ p.2 ∈ td ∧
        sqlEqS p.1.fec_committee_id p.2.fec_committee_id = true ∧
        sqlEqS p.1.contributor_name p.2.contributor_name = true := by
  obtain ⟨r, t⟩ := p
  simp only [exclusivityJoin, List.mem_flatMap, List.mem_map, List.mem_filter,
    Bool.and_eq_true]
  constructor
  · rintro ⟨r2, hr2, t2, ⟨ht2, hc1, hc2⟩, heq⟩
    obtain ⟨hr, ht⟩ := Prod.mk.injEq .. ▸ heq
    subst hr
    subst ht
    exact ⟨hr2, ht2, hc1, hc2⟩
  · rintro ⟨hr, ht, h1, h2⟩
    exact ⟨r, hr, t, ⟨ht, h1, h2⟩, rfl⟩

/-- Under the two name dependencies, rows of the exclusivity relation
with the same contributor and recipient ids are equal. -/
theorem exclusivity_unique {fc : List ContributionRow}
    (hc : contributorNameFD fc) (hr : recipientNameFD fc)
    {e1 e2 : ExclusivityRow}
    (h1 : e1 ∈ compute_exclusivity_scores fc)
    (h2 : e2 ∈ compute_exclusivity_scores fc)
    (hcid : e1.fec_committee_id = e2.fec_committee_id)
    (hoid : e1.other_id = e2.other_id) : e1 = e2 := by
  simp only [compute_exclusivity_scores] at h1 h2
  rcases List.mem_map.mp h1 with ⟨k1, hk1, e1eq⟩
  rcases List.mem_map.mp h2 with ⟨k2, hk2, e2eq⟩
  rcases List.mem_map.mp ((mem_dedupKeys _ _).mp hk1) with ⟨p1, hp1, hkey1⟩
  rcases List.mem_map.mp ((mem_dedupKeys _ _).mp hk2) with ⟨p2, hp2, hkey2⟩
  subst hkey1
  subst hkey2
  subst e1eq
  subst e2eq
  rcases mem_exclusivityJoin.mp hp1 with ⟨hr1, ht1, hc1, hn1⟩
  rcases mem_exclusivityJoin.mp hp2 with ⟨hr2, ht2, hc2, hn2⟩
  simp only [exclusivityRowFor, exclusivityKey] at hcid hoid
  -- the underlying contribution rows agree on both ids
  have hcname : p1.1.contributor_name = p2.1.contributor_name :=
    hc p1.1 hr1 p2.1 hr2 hcid
  have hrname : p1.1.recipient_name = p2.1.recipient_name :=
    hr p1.1 hr1 p2.1 hr2 hoid
  -- the joined totals rows agree on their grouping columns
  rcases sqlEqS_eq_true.mp hc1 with ⟨v1, hv1a, hv1b⟩
  rcases sqlEqS_eq_true.mp hc2 with ⟨v2, hv2a, hv2b⟩
  rcases sqlEqS_eq_true.mp hn1 with ⟨w1, hw1a, hw1b⟩
  rcases sqlEqS_eq_true.mp hn2 with ⟨w2, hw2a, hw2b⟩
  have htcid : p1.2.fec_committee_id = p2.2.fec_committee_id := by
    rw [hv1b, hv2b, ← hv1a, ← hv2a, hcid]
  have htname : p1.2.contributor_name = p2.2.contributor_name := by
    rw [hw1b, hw2b, ← hw1a, ← hw2a, hcname]
  have ht : p1.2 = p2.2 := total_donated_unique ht1 ht2 htcid htname
  have hkeq : exclusivityKey p1 = exclusivityKey p2 := by
    simp only [exclusivityKey, hcid, hoid, hcname, hrname, ht]
  rw [hkeq]

/-- The exclusivity relation never has duplicate rows: each row embeds
its own grouping key and the key list is deduplicated. -/
theorem exclusivity_nodup (fc : List ContributionRow) :
    (compute_exclusivity_scores fc).Nodup := by
  simp only [compute_exclusivity_scores]
  refine List.Nodup.map_on ?_ (nodup_dedupKeys _)
  intro k1 _ k2 _ heq
  obtain ⟨a1, b1, c1, d1, e1⟩ := k1
  obtain ⟨a2, b2, c2, d2, e2⟩ := k2
  simp only [exclusivityRowFor, ExclusivityRow.mk.injEq] at heq
  obtain ⟨h1, h2, h3, h4, h5, -⟩ := heq
  subst h1
  subst h2
  subst h3
  subst h4
  subst h5
  rfl

/-- Rows selected by `WHERE date IS NOT NULL` carry a date. -/
theorem datedRows_isSome {fc : List ContributionRow} {r : ContributionRow}
    (h : r ∈ datedRows fc) : ∃ d, r.date = some d := by
  have := (List.mem_filter.mp h).2
  cases hd : r.date with
  | none => rw [hd] at this; simp [Option.isSome] at this
  | some d => exact ⟨d, rfl⟩

/-- Membership in the raw length relation: one row per grouping key that
survives `HAVING COUNT(*) > 1`. -/
theorem mem_compute_unnormalized_length {fc : List ContributionRow}
    {u : UnnormalizedLengthRow} :
    u ∈ compute_unnormalized_length fc ↔
      ∃ k, (k ∈ dedupKeys ((datedRows fc).map lengthKey) ∧
        1 < ((datedRows fc).filter (fun r => decide (lengthKey r = k))).length) ∧
        unnormalizedLengthRowFor (datedRows fc) k = u := by
  simp only [compute_unnormalized_length, List.mem_map, List.mem_filter,
    decide_eq_true_eq]

/-- Every raw length row records a group of more than one dated
contribution with its key. -/
theorem unnormalized_length_group {fc : List ContributionRow}
    {u : UnnormalizedLengthRow} (h : u ∈ compute_unnormalized_length fc) :
    1 < ((datedRows fc).filter (fun r => decide (lengthKey r =
      (u.fec_committee_id, u.other_id, u.contributor_name,
        u.recipient_name)))).length := by
  rcases mem_compute_unnormalized_length.mp h with ⟨k, ⟨-, hcount⟩, heq⟩
  obtain ⟨a, b, c, d⟩ := k
  subst heq
  simpa [unnormalizedLengthRowFor] using hcount

/-- The raw span of a length row is the difference of its recorded
extremal dates. -/
theorem unnormalized_length_shape {fc : List ContributionRow}
    {u : UnnormalizedLengthRow} (h : u ∈ compute_unnormalized_length fc) :
    u.length_score = u.max_date - u.min_date := by
  rcases mem_compute_unnormalized_length.mp h with ⟨k, -, heq⟩
  subst heq
  rfl

/-- Raw spans are non-negative: the maximal date of a non-empty dated
group is at least its minimal date. -/
theorem unnormalized_length_nonneg {fc : List ContributionRow}
    {u : UnnormalizedLengthRow} (h : u ∈ compute_unnormalized_length fc) :
    0 ≤ u.length_score := by
  rcases mem_compute_unnormalized_length.mp h with ⟨k, ⟨-, hcount⟩, heq⟩
  subst heq
  set g := (datedRows fc).filter (fun r => decide (lengthKey r = k)) with hg
  have hne : g ≠ [] := by
    intro hnil
    rw [hnil] at hcount
    simp at hcount
  obtain ⟨r, hr⟩ := List.exists_mem_of_ne_nil g hne
  have hrd : r ∈ datedRows fc := (List.mem_filter.mp (hg ▸ hr)).1
  obtain ⟨d, hd⟩ := datedRows_isSome hrd
  have hdm : d ∈ g.filterMap (fun r => r.date) := by
    rw [List.mem_filterMap]
    exact ⟨r, hr, hd ▸ rfl⟩
  set ds := g.filterMap (fun r => r.date) with hds
  have hdsne : ds ≠ [] := List.ne_nil_of_mem hdm
  obtain ⟨mx, hmx⟩ := listMaxInt_isSome ds hdsne
  obtain ⟨mn, hmn⟩ := listMinInt_isSome ds hdsne
  have hmnm : mn ∈ ds := listMinInt_mem ds mn hmn
  have hle : mn ≤ mx := le_listMaxInt ds mn hmnm mx hmx
  simp only [unnormalizedLengthRowFor, ← hg, ← hds, hmx, hmn, Option.getD_some]
  omega

/-- Under the two name dependencies, raw length rows with the same
contributor and recipient ids are equal. -/
theorem unnormalized_length_unique {fc : List ContributionRow}
    (hc : contributorNameFD fc) (hr : recipientNameFD fc)
    {u1 u2 : UnnormalizedLengthRow}
    (h1 : u1 ∈ compute_unnormalized_length fc)
    (h2 : u2 ∈ compute_unnormalized_length fc)
    (hcid : u1.fec_committee_id = u2.fec_committee_id)
    (hoid : u1.other_id = u2.other_id) : u1 = u2 := by
  rcases mem_compute_unnormalized_length.mp h1 with ⟨k1, ⟨hk1, hcnt1⟩, e1⟩
  rcases mem_compute_unnormalized_length.mp h2 with ⟨k2, ⟨hk2, hcnt2⟩, e2⟩
  rcases List.mem_map.mp ((mem_dedupKeys _ _).mp hk1) with ⟨r1, hr1, hkey1⟩
  rcases List.mem_map.mp ((mem_dedupKeys _ _).mp hk2) with ⟨r2, hr2, hkey2⟩
  have hr1fc : r1 ∈ fc := (List.mem_filter.mp hr1).1
  have hr2fc : r2 ∈ fc := (List.mem_filter.mp hr2).1
  subst e1
  subst e2
  simp only [unnormalizedLengthRowFor] at hcid hoid
  rw [← hkey1, ← hkey2] at hcid hoid
  simp only [lengthKey] at hcid hoid
  have hcname : r1.contributor_name = r2.contributor_name :=
    hc r1 hr1fc r2 hr2fc hcid
  have hrname : r1.recipient_name = r2.recipient_name :=
    hr r1 hr1fc r2 hr2fc hoid
  have hkeq : k1 = k2 := by
    rw [← hkey1, ← hkey2]
    simp only [lengthKey, hcid, hoid, hcname, hrname]
  rw [hkeq]

/-- The raw length relation never has duplicate rows. -/
theorem unnormalized_length_nodup (fc : List ContributionRow) :
    (compute_unnormalized_length fc).Nodup := by
  simp only [compute_unnormalized_length]
  refine List.Nodup.map_on ?_ ((nodup_dedupKeys _).filter _)
  intro k1 _ k2 _ heq
  obtain ⟨a1, b1, c1, d1⟩ := k1
  obtain ⟨a2, b2, c2, d2⟩ := k2
  simp only [unnormalizedLengthRowFor, UnnormalizedLengthRow.mk.injEq] at heq
  obtain ⟨h1, h2, h3, h4, -⟩ := heq
  subst h1
  subst h2
  subst h3
  subst h4
  rfl

/-- The normalized length relation maps each raw row to the same row
with its span divided by the stored max length. -/
theorem mem_compute_length_scores {fc : List ContributionRow}
    {l : LengthScoreRow} :
    l ∈ compute_length_scores fc ↔
      ∃ u ∈ compute_unnormalized_length fc,
        l = { fec_committee_id := u.fec_committee_id
              contributor_name := u.contributor_name
              other_id := u.other_id
              recipient_name := u.recipient_name
              max_date := u.max_date
              min_date := u.min_date
              length_score := (u.length_score : ℚ) /
                ((max_length_value (compute_unnormalized_length fc) : Int) : ℚ) } := by
  simp only [compute_length_scores, List.mem_map]
  constructor
  · rintro ⟨u, hu, heq⟩
    exact ⟨u, hu, heq.symm⟩
  · rintro ⟨u, hu, heq⟩
    exact ⟨u, hu, heq.symm⟩

/-- Under the two name dependencies, normalized length rows with the
same contributor and recipient ids are equal. -/
theorem length_scores_unique {fc : List ContributionRow}
    (hc : contributorNameFD fc) (hr : recipientNameFD fc)
    {l1 l2 : LengthScoreRow}
    (h1 : l1 ∈ compute_length_scores fc) (h2 : l2 ∈ compute_length_scores fc)
    (hcid : l1.fec_committee_id = l2.fec_committee_id)
    (hoid : l1.other_id = l2.other_id) : l1 = l2 := by
  rcases mem_compute_length_scores.mp h1 with ⟨u1, hu1, e1⟩
  rcases mem_compute_length_scores.mp h2 with ⟨u2, hu2, e2⟩
  subst e1
  subst e2
  simp only at hcid hoid
  rw [unnormalized_length_unique hc hr hu1 hu2 hcid hoid]

/-- The normalized length relation never has duplicate rows. -/
theorem length_scores_nodup (fc : List ContributionRow) :
    (compute_length_scores fc).Nodup := by
  simp only [compute_length_scores]
  refine List.Nodup.map_on ?_ (unnormalized_length_nodup fc)
  intro u1 hu1 u2 hu2 heq
  simp only [LengthScoreRow.mk.injEq] at heq
  obtain ⟨h1, h2, h3, h4, h5, h6, -⟩ := heq
  have hs1 := unnormalized_length_shape hu1
  have hs2 := unnormalized_length_shape hu2
  obtain ⟨a1, b1, c1, d1, m1, n1, s1⟩ := u1
  obtain ⟨a2, b2, c2, d2, m2, n2, s2⟩ := u2
  simp only at h1 h2 h3 h4 h5 h6 hs1 hs2
  subst h1
  subst h2
  subst h3
  subst h4
  subst h5
  subst h6
  rw [hs1, hs2]

/-- Pointwise-equal functions flat-map equally. -/
theorem flatMap_congr {α β : Type} {l : List α} {f g : α → List β}
    (h : ∀ a ∈ l, f a = g a) : l.flatMap f = l.flatMap g := by
  induction l with
  | nil => rfl
  | cons a l ih =>
    simp only [List.flatMap_cons]
    rw [h a (List.mem_cons_self a l),
      ih (fun x hx => h x (List.mem_cons_of_mem a hx))]

/-- A LEFT JOIN entry is NULL or one of the matching rows. -/
theorem mem_leftMatches {α : Type} {rows : List α} {p : α → Bool}
    {x : Option α} (h : x ∈ leftMatches rows p) :
    x = none ∨ ∃ a ∈ rows, x = some a ∧ p a = true := by
  simp only [leftMatches] at h
  by_cases he : (rows.filter p).isEmpty
  · rw [if_pos he] at h
    simp at h
    exact Or.inl h
  · rw [if_neg he] at h
    rcases List.mem_map.mp h with ⟨a, ha, heq⟩
    rcases List.mem_filter.mp ha with ⟨ham, hap⟩
    exact Or.inr ⟨a, ham, heq.symm, hap⟩

/-- Every row of the combine join carries a filtered-contribution row
and optional matching sub-score rows. -/
theorem mem_final_join {fc : List ContributionRow} {es : List ExclusivityRow}
    {ls : List LengthScoreRow} {j : FinalJoinRow}
    (h : j ∈ final_join fc es ls) :
    j.c ∈ fc ∧ (j.es = none ∨ ∃ e ∈ es, j.es = some e) ∧
      (j.ls = none ∨ ∃ l ∈ ls, j.ls = some l) := by
  simp only [final_join, List.mem_flatMap, List.mem_map] at h
  rcases h with ⟨r, hr, e, he, l, hl, heq⟩
  subst heq
  refine ⟨hr, ?_, ?_⟩
  · rcases mem_leftMatches he with h | ⟨a, ha, haeq, -⟩
    · exact Or.inl h
    · exact Or.inr ⟨a, ha, haeq⟩
  · rcases mem_leftMatches hl with h | ⟨a, ha, haeq, -⟩
    · exact Or.inl h
    · exact Or.inr ⟨a, ha, haeq⟩

/-- Under the name dependencies, at most one exclusivity row matches any
pair of id values. -/
theorem es_filter_le_one {fc : List ContributionRow}
    (hc : contributorNameFD fc) (hr : recipientNameFD fc)
    (cid oid : Option String) :
    ((compute_exclusivity_scores fc).filter (fun e =>
      sqlEqS cid e.fec_committee_id && sqlEqS oid e.other_id)).length ≤ 1 := by
  refine length_le_one_of_nodup_of_all_eq _
    ((exclusivity_nodup fc).filter _) ?_
  intro a ha b hb
  rcases List.mem_filter.mp ha with ⟨ham, hap⟩
  rcases List.mem_filter.mp hb with ⟨hbm, hbp⟩
  rw [Bool.and_eq_true] at hap hbp
  rcases hap with ⟨hap1, hap2⟩
  rcases hbp with ⟨hbp1, hbp2⟩
  rcases sqlEqS_eq_true.mp hap1 with ⟨v1, hv1, hv1b⟩
  rcases sqlEqS_eq_true.mp hbp1 with ⟨v2, hv2, hv2b⟩
  rcases sqlEqS_eq_true.mp hap2 with ⟨w1, hw1, hw1b⟩
  rcases sqlEqS_eq_true.mp hbp2 with ⟨w2, hw2, hw2b⟩
  have hvv : v1 = v2 := Option.some.inj (hv1.symm.trans hv2)
  have hww : w1 = w2 := Option.some.inj (hw1.symm.trans hw2)
  have hcid : a.fec_committee_id = b.fec_committee_id := by
    rw [hv1b, hv2b, hvv]
  have hoid : a.other_id = b.other_id := by
    rw [hw1b, hw2b, hww]
  exact exclusivity_unique hc hr ham hbm hcid hoid

/-- Under the name dependencies, at most one length row matches any pair
of id values. -/
theorem ls_filter_le_one {fc : List ContributionRow}
    (hc : contributorNameFD fc) (hr : recipientNameFD fc)
    (cid oid : Option String) :
    ((compute_length_scores fc).filter (fun l =>
      sqlEqS cid l.fec_committee_id && sqlEqS oid l.other_id)).length ≤ 1 := by
  refine length_le_one_of_nodup_of_all_eq _
    ((length_scores_nodup fc).filter _) ?_
  intro a ha b hb
  rcases List.mem_filter.mp ha with ⟨ham, hap⟩
  rcases List.mem_filter.mp hb with ⟨hbm, hbp⟩
  rw [Bool.and_eq_true] at hap hbp
  rcases hap with ⟨hap1, hap2⟩
  rcases hbp with ⟨hbp1, hbp2⟩
  rcases sqlEqS_eq_true.mp hap1 with ⟨v1, hv1, hv1b⟩
  rcases sqlEqS_eq_true.mp hbp1 with ⟨v2, hv2, hv2b⟩
  rcases sqlEqS_eq_true.mp hap2 with ⟨w1, hw1, hw1b⟩
  rcases sqlEqS_eq_true.mp hbp2 with ⟨w2, hw2, hw2b⟩
  have hvv : v1 = v2 := Option.some.inj (hv1.symm.trans hv2)
  have hww : w1 = w2 := Option.some.inj (hw1.symm.trans hw2)
  have hcid : a.fec_committee_id = b.fec_committee_id := by
    rw [hv1b, hv2b, hvv]
  have hoid : a.other_id = b.other_id := by
    rw [hw1b, hw2b, hww]
  exact length_scores_unique hc hr ham hbm hcid hoid

/-- When at most one sub-score row matches each pair, the double LEFT
JOIN of the combine query produces exactly one joined row per
contribution row. -/
theorem final_join_eq_map {fc : List ContributionRow}
    {es : List ExclusivityRow} {ls : List LengthScoreRow}
    (hes : ∀ r ∈ fc, ((es.filter (fun e =>
      sqlEqS r.fec_committee_id e.fec_committee_id &&
      sqlEqS r.other_id e.other_id)).length ≤ 1))
    (hls : ∀ r ∈ fc, ((ls.filter (fun l =>
      sqlEqS r.fec_committee_id l.fec_committee_id &&
      sqlEqS r.other_id l.other_id)).length ≤ 1)) :
    final_join fc es ls = fc.map (canonicalJoinRow es ls) := by
  unfold final_join
  rw [flatMap_congr (g := fun r => [canonicalJoinRow es ls r]) ?_,
    flatMap_map_singleton]
  intro r hrm
  rw [leftMatches_eq_head es _ (hes r hrm), leftMatches_eq_head ls _ (hls r hrm)]
  simp only [List.flatMap_cons, List.flatMap_nil, List.map_cons, List.map_nil,
    List.append_nil]
  rfl

/-- Membership in the combine output: one row per deduplicated grouping
key of the joined relation. -/
theorem mem_compute_final_scores {fc : List ContributionRow}
    {es : List ExclusivityRow} {ls : List LengthScoreRow} {wE wL : ℚ}
    {row : FinalScoreRow} :
    row ∈ compute_final_scores fc es ls wE wL ↔
      ∃ k, k ∈ dedupKeys ((final_join fc es ls).map finalKey) ∧
        finalRowFor (final_join fc es ls) wE wL k = row := by
  simp only [compute_final_scores, List.mem_map]

/-- Under the name dependencies, the seven-column combine grouping key
partitions the filtered relation exactly as the id pair does. -/
theorem final_key_partition {fc : List ContributionRow}
    {es : List ExclusivityRow} {ls : List LengthScoreRow}
    (hc : contributorNameFD fc) (hr : recipientNameFD fc) :
    ∀ a ∈ fc, ∀ b ∈ fc,
      (finalKey (canonicalJoinRow es ls a) = finalKey (canonicalJoinRow es ls b) ↔
        pairKey a = pairKey b) := by
  intro a ha b hb
  constructor
  · intro h
    have h1 := congrArg FinalKey.fec_committee_id h
    have h2 := congrArg FinalKey.other_id h
    simp only [finalKey, canonicalJoinRow] at h1 h2
    simp only [pairKey, h1, h2]
  · intro h
    have hcid : a.fec_committee_id = b.fec_committee_id :=
      congrArg Prod.fst h
    have hoid : a.other_id = b.other_id := congrArg Prod.snd h
    have hcname : a.contributor_name = b.contributor_name :=
      hc a ha b hb hcid
    have hrname : a.recipient_name = b.recipient_name :=
      hr a ha b hb hoid
    simp only [finalKey, canonicalJoinRow, hcid, hoid, hcname, hrname]

/-- Exclusivity relation of the refund scenario, evaluated. -/
theorem refund_es : compute_exclusivity_scores refundFc = [refundEs1, refundEs2] := by
  decide

/-- Length relation of the refund scenario: both pairs have a single
contribution, so the stage emits nothing. -/
theorem refund_ls : compute_length_scores refundFc = [] := by decide

/-- The combine stage on the refund scenario: the emitted exclusivity
scores are `2` and `-1`. -/
theorem refund_final :
    run_final_scores refundFc 1 1 = [refundFinal1, refundFinal2] := by
  simp only [run_final_scores]
  rw [refund_es, refund_ls]
  simp only [compute_final_scores]
  simp [final_join, leftMatches, sqlEqS, finalKey, finalRowFor, dedupKeys,
    exclExpr, sqlDivIntQ, sqlDivQ, sqlCoalesceQ, List.filterMap, List.foldl,
    refundFc, refundRow1, refundRow2, refundEs1, refundEs2,
    refundFinal1, refundFinal2]
  norm_num

/-- Raw length relation of the zero-span scenario, evaluated. -/
theorem z_ul : compute_unnormalized_length zFc = [zU] := by decide

/-- Normalized length relation of the zero-span scenario: the stored max
length falls back to `1` (the computed max `0` is falsy), and the only
row scores `0`. -/
theorem z_ls : compute_length_scores zFc = [zL] := by
  simp only [compute_length_scores]
  rw [z_ul]
  simp [max_length_value, listMaxInt, zU, zL]

/-- SQL `NOT IN` is TRUE exactly for an empty list, or a non-NULL value
matching no list entry where the list has no NULL entry. -/
theorem sqlNotIn_eq_true {x : Option String} {s : List (Option String)} :
    sqlNotIn x s = true ↔
      (s = [] ∨ ∃ v, x = some v ∧ some v ∉ s ∧ none ∉ s) := by
  unfold sqlNotIn
  by_cases hs : s.isEmpty
  · simp [if_pos hs, List.isEmpty_iff.mp hs]
  · rw [if_neg hs]
    have hsne : s ≠ [] := by
      intro hnil
      rw [hnil] at hs
      exact hs rfl
    cases x with
    | none => simp [hsne]
    | some v =>
      simp only [decide_eq_true_eq, hsne, false_or]
      constructor
      · intro h
        exact ⟨v, rfl, h.1, h.2⟩
      · rintro ⟨w, hw, h1, h2⟩
        cases hw
        exact ⟨h1, h2⟩

/-- Membership in the Super PAC id list. -/
theorem mem_superPacIds {committees : List CommitteeRow} {x : Option String} :
    x ∈ superPacIds committees ↔
      ∃ c ∈ committees, c.is_super_pac = true ∧ c.fecid = x := by
  simp only [superPacIds, List.mem_map, List.mem_filter]
  constructor
  · rintro ⟨c, ⟨hc, hf⟩, heq⟩
    exact ⟨c, hc, hf, heq⟩
  · rintro ⟨c, hc, hf, heq⟩
    exact ⟨c, ⟨hc, hf⟩, heq⟩

/-- Every combine-output row takes its id pair from some row of the
filtered contribution relation. -/
theorem final_row_ids {fc : List ContributionRow} {es : List ExclusivityRow}
    {ls : List LengthScoreRow} {wE wL : ℚ} {row : FinalScoreRow}
    (h : row ∈ compute_final_scores fc es ls wE wL) :
    ∃ r ∈ fc, row.fec_committee_id = r.fec_committee_id ∧
      row.other_id = r.other_id := by
  rcases mem_compute_final_scores.mp h with ⟨k, hk, heq⟩
  rcases List.mem_map.mp ((mem_dedupKeys _ _).mp hk) with ⟨j, hj, hkey⟩
  refine ⟨j.c, (mem_final_join hj).1, ?_, ?_⟩
  · rw [← heq, ← hkey]
    rfl
  · rw [← heq, ← hkey]
    rfl

/-- Running the pipeline leaves a state that the setup step no longer
changes: the filtered relation is already populated (or stays empty
because the raw relation produces nothing). -/
theorem setup_after_run (wE wL : ℚ) (s : DBState) :
    pipeline_setup (run_overall_pipeline wE wL s) = run_overall_pipeline wE wL s := by
  unfold run_overall_pipeline pipeline_setup
  by_cases hs : s.fecContributions.isEmpty
  · by_cases hl : (load_from_committee_contributions s.fecCommittees
      s.fecCommitteeContributions).isEmpty
    · simp [hs, hl]
    · simp [hs, hl]
  · simp [hs]

/-! ## Claim theorems -/

/-- C1 (counterexample): on the spec scenario the code emits final score
`3/10` for `(C1, R1)`, while the claimed six-weight average of the six
sub-scores is `1/10`; the two differ, so the combine stage does not
divide by the full six-weight sum. -/
theorem c1_counterexample :
    run_final_scores scFc 1 1 = [scFinal1, scFinal2] ∧
    scFinal1.final_score = some (3/10) ∧
    (scFinal1.exclusivity_score * 1 + scFinal1.report_type_score * 1 +
      scFinal1.periodicity_score * 1 + scFinal1.maxed_out_score * 1 +
      scFinal1.length_score * 1 + scFinal1.race_focus_score * 1) /
      (1 + 1 + 1 + 1 + 1 + 1) = (1/10 : ℚ) ∧
    ((3 : ℚ)/10) ≠ 1/10 := by
  refine ⟨sc_final, rfl, ?_, by norm_num⟩
  norm_num [scFinal1]

/-- C1 (amended): in every combine-stage row the final score is the weighted
average of its exclusivity and length scores alone, divided by the sum
of those two weights only — the four degraded sub-score weights never
enter the denominator. -/
theorem c1_final_score_two_weight_formula (fc : List ContributionRow)
    (wE wL : ℚ) :
    ∀ row ∈ run_final_scores fc wE wL,
      row.final_score =
        sqlDivQ (row.exclusivity_score * wE + row.length_score * wL)
          (wE + wL) := by
  intro row hrow
  simp only [run_final_scores] at hrow
  rcases mem_compute_final_scores.mp hrow with ⟨k, -, heq⟩
  subst heq
  rfl

/-- Witness for C1 at the spec scenario. -/
theorem c1_final_score_two_weight_formula_witness :
    scFinal1 ∈ run_final_scores scFc 1 1 ∧
    scFinal1.final_score =
      sqlDivQ (scFinal1.exclusivity_score * 1 + scFinal1.length_score * 1)
        (1 + 1) := by
  have hmem : scFinal1 ∈ run_final_scores scFc 1 1 := by
    rw [sc_final]
    exact List.mem_cons_self _ _
  exact ⟨hmem, c1_final_score_two_weight_formula scFc 1 1 scFinal1 hmem⟩

/-- C2 (code bug): the exclusivity score is not capped at 1.0 — on the
refund scenario the code emits exclusivity `2.0 > 1` for `(CR, R1)` (and
`-1 < 0` for `(CR, R2)`), contradicting the docstring "Score is capped
at 1.0 (100%)". -/
theorem c2_exclusivity_uncapped :
    run_final_scores refundFc 1 1 = [refundFinal1, refundFinal2] ∧
    refundFinal1.exclusivity_score = 2 ∧
    ¬ (refundFinal1.exclusivity_score ≤ 1) ∧
    refundFinal2.exclusivity_score = -1 ∧
    ¬ ((0 : ℚ) ≤ refundFinal2.exclusivity_score) := by
  refine ⟨refund_final, rfl, ?_, rfl, ?_⟩
  · norm_num [refundFinal1]
  · norm_num [refundFinal2]

/-- C3 (counterexample): with one id pair appearing under two
contributor names the combine stage emits 4 rows for 1 distinct pair. -/
theorem c3_counterexample :
    (run_final_scores dupFc 1 1).length = 4 ∧
    (dedupKeys (dupFc.map pairKey)).length = 1 ∧ (4 : Nat) ≠ 1 := by
  refine ⟨by decide, by decide, by decide⟩

/-- C3 (amended): when contributor and recipient names are functionally
determined by their ids in the filtered relation, the combine stage
emits exactly one final-score row per distinct (contributor id,
recipient id) pair. -/
theorem c3_pair_completeness_under_name_dependency
    (fc : List ContributionRow) (wE wL : ℚ)
    (hc : contributorNameFD fc) (hr : recipientNameFD fc) :
    (run_final_scores fc wE wL).length =
      (dedupKeys (fc.map pairKey)).length := by
  unfold run_final_scores compute_final_scores
  rw [final_join_eq_map (fun r _ => es_filter_le_one hc hr _ _)
    (fun r _ => ls_filter_le_one hc hr _ _)]
  rw [List.length_map, List.map_map]
  exact dedupKeys_length_congr _ _ fc
    (fun a ha b hb => final_key_partition hc hr a ha b hb)

/-- Witness for C3 at the spec scenario: names are consistent there and
the combine stage emits one row per pair. -/
theorem c3_pair_completeness_witness :
    contributorNameFD scFc ∧ recipientNameFD scFc ∧
    (run_final_scores scFc 1 1).length =
      (dedupKeys (scFc.map pairKey)).length :=
  ⟨by decide, by decide,
    c3_pair_completeness_under_name_dependency scFc 1 1 (by decide) (by decide)⟩

/-- C4 (counterexample): with one flagged Super PAC, a record with a
NULL contributor id is dropped by the filter even though neither of its
ids is in the Super PAC set. -/
theorem c4_counterexample :
    load_from_committee_contributions spCommittees nullRaw = [] ∧
    nullContribRow ∈ nullRaw ∧
    nullContribRow.fec_committee_id ∉ superPacIds spCommittees ∧
    nullContribRow.other_id ∉ superPacIds spCommittees := by
  refine ⟨by decide, by decide, by decide, by decide⟩

/-- C4 (amended): the filter emits a record iff the Super PAC set is
empty, or both its ids are non-NULL, neither id is in the set, and the
set has no NULL entry (SQL `NOT IN` semantics); consequently no emitted
final-score row references a flagged Super PAC id. -/
theorem c4_filter_semantics_and_superpac_exclusion
    (committees : List CommitteeRow) (raw : List ContributionRow)
    (wE wL : ℚ) :
    (∀ r : ContributionRow,
      r ∈ load_from_committee_contributions committees raw ↔
        (r ∈ raw ∧ (superPacIds committees = [] ∨
          ((∃ v, r.fec_committee_id = some v ∧
              some v ∉ superPacIds committees) ∧
           (∃ v, r.other_id = some v ∧ some v ∉ superPacIds committees) ∧
           none ∉ superPacIds committees))))
    ∧ (∀ row ∈ run_final_scores
        (load_from_committee_contributions committees raw) wE wL,
        ∀ c ∈ committees, c.is_super_pac = true →
          ¬ ∃ v, c.fecid = some v ∧
            (row.fec_committee_id = some v ∨ row.other_id = some v)) := by
  constructor
  · intro r
    simp only [load_from_committee_contributions, List.mem_filter,
      Bool.and_eq_true, sqlNotIn_eq_true]
    constructor
    · rintro ⟨hmem, h1, h2⟩
      refine ⟨hmem, ?_⟩
      rcases h1 with hnil | ⟨v, hv, hvn, hnn⟩
      · exact Or.inl hnil
      · rcases h2 with hnil | ⟨w, hw, hwn, -⟩
        · exact Or.inl hnil
        · exact Or.inr ⟨⟨v, hv, hvn⟩, ⟨w, hw, hwn⟩, hnn⟩
    · rintro ⟨hmem, hnil | ⟨⟨v, hv, hvn⟩, ⟨w, hw, hwn⟩, hnn⟩⟩
      · exact ⟨hmem, Or.inl hnil, Or.inl hnil⟩
      · exact ⟨hmem, Or.inr ⟨v, hv, hvn, hnn⟩, Or.inr ⟨w, hw, hwn, hnn⟩⟩
  · intro row hrow c hcmem hcflag
    rintro ⟨v, hvfec, hvrow⟩
    have hvS : some v ∈ superPacIds committees :=
      mem_superPacIds.mpr ⟨c, hcmem, hcflag, hvfec⟩
    simp only [run_final_scores] at hrow
    rcases final_row_ids hrow with ⟨r, hrmem, hrcid, hroid⟩
    rcases List.mem_filter.mp hrmem with ⟨-, hpred⟩
    rw [Bool.and_eq_true] at hpred
    rcases hpred with ⟨h1, h2⟩
    rcases hvrow with hcidv | hoidv
    · have hr_cid : r.fec_committee_id = some v := by rw [← hrcid, hcidv]
      rcases sqlNotIn_eq_true.mp h1 with hnil | ⟨w, hw, hwn, -⟩
      · rw [hnil] at hvS
        simp at hvS
      · have : w = v := Option.some.inj (hw.symm.trans hr_cid)
        exact hwn (this ▸ hvS)
    · have hr_oid : r.other_id = some v := by rw [← hroid, hoidv]
      rcases sqlNotIn_eq_true.mp h2 with hnil | ⟨w, hw, hwn, -⟩
      · rw [hnil] at hvS
        simp at hvS
      · have : w = v := Option.some.inj (hw.symm.trans hr_oid)
        exact hwn (this ▸ hvS)

/-- Witness for C4: a non-flagged pair passes the filter and its final
row references no flagged id. -/
theorem c4_filter_semantics_witness :
    scFinal1 ∈ run_final_scores
      (load_from_committee_contributions spCommittees scFc) 1 1 ∧
    ¬ ∃ v, (some "K" : Option String) = some v ∧
      (scFinal1.fec_committee_id = some v ∨
        scFinal1.other_id = some v) := by
  have hload : load_from_committee_contributions spCommittees scFc = scFc := by
    decide
  have hmem : scFinal1 ∈ run_final_scores
      (load_from_committee_contributions spCommittees scFc) 1 1 := by
    rw [hload, sc_final]
    exact List.mem_cons_self _ _
  refine ⟨hmem, ?_⟩
  exact (c4_filter_semantics_and_superpac_exclusion spCommittees scFc 1 1).2
    scFinal1 hmem
    { fecid := some "K", committee_type := some "O", is_super_pac := true }
    (by decide) rfl

/-- C5: with an empty committee relation the Super PAC set is empty and
the filter passes every raw record through unchanged, NULL ids
included, without erroring. -/
theorem c5_empty_committees_filter_noop (raw : List ContributionRow) :
    load_from_committee_contributions [] raw = raw := by
  simp [load_from_committee_contributions, superPacIds, sqlNotIn]

/-- C6: when both contribution relations are empty the compute command
fails fast with a precondition error instead of running the scoring
stages. -/
theorem c6_empty_input_fails_fast (s : DBState) (wE wL : ℚ)
    (_hraw : s.fecCommitteeContributions = [])
    (hfc : s.fecContributions = []) :
    compute_command wE wL s =
      Except.error "No contribution data found" := by
  simp [compute_command, hfc]

/-- Witness for C6 at the empty database state. -/
theorem c6_empty_input_fails_fast_witness :
    compute_command 1 1 emptyDB =
      Except.error "No contribution data found" :=
  c6_empty_input_fails_fast emptyDB 1 1 rfl rfl

/-- C7: with a non-zero weight sum every emitted final score is defined,
the length normalizer is at least 1 (so its division is guarded), and a
zero or NULL contributor total makes the coalesced exclusivity
expression 0 rather than an error. -/
theorem c7_division_guards (fc : List ContributionRow) (wE wL : ℚ)
    (hw : wE + wL ≠ 0) :
    (∀ row ∈ run_final_scores fc wE wL, (row.final_score).isSome = true)
    ∧ 1 ≤ max_length_value (compute_unnormalized_length fc)
    ∧ (∀ amt : Option Int, exclExpr amt (some 0) = 0 ∧ exclExpr amt none = 0) := by
  refine ⟨?_, ?_, ?_⟩
  · intro row hrow
    simp only [run_final_scores] at hrow
    rcases mem_compute_final_scores.mp hrow with ⟨k, -, heq⟩
    subst heq
    simp [finalRowFor, sqlDivQ, hw]
  · unfold max_length_value
    cases hm : listMaxInt ((compute_unnormalized_length fc).map
        (fun r => r.length_score)) with
    | none => norm_num
    | some m =>
      have hmem := listMaxInt_mem _ m hm
      rcases List.mem_map.mp hmem with ⟨u, hu, hueq⟩
      have hnn : (0 : Int) ≤ m := hueq ▸ unnormalized_length_nonneg hu
      show 1 ≤ if m = 0 then 1 else m
      by_cases hz : m = 0
      · rw [if_pos hz]
      · rw [if_neg hz]
        omega
  · intro amt
    cases amt <;> simp [exclExpr, sqlDivIntQ, sqlCoalesceQ]

/-- Witness for C7 at the spec scenario with default weights. -/
theorem c7_division_guards_witness :
    ((1 : ℚ) + 1 ≠ 0) ∧
    scFinal1 ∈ run_final_scores scFc 1 1 ∧
    (scFinal1.final_score).isSome = true ∧
    1 ≤ max_length_value (compute_unnormalized_length scFc) := by
  have hw : (1 : ℚ) + 1 ≠ 0 := by norm_num
  have hmem : scFinal1 ∈ run_final_scores scFc 1 1 := by
    rw [sc_final]
    exact List.mem_cons_self _ _
  exact ⟨hw, hmem, (c7_division_guards scFc 1 1 hw).1 scFinal1 hmem,
    (c7_division_guards scFc 1 1 hw).2.1⟩

/-- C8 (counterexample): in the zero-span scenario the only qualifying
pair — necessarily the one with the longest observed span — is
normalized against the fallback denominator 1 and scores `0`, not
`1.0`. -/
theorem c8_counterexample :
    compute_unnormalized_length zFc = [zU] ∧
    listMaxInt ((compute_unnormalized_length zFc).map
      (fun r => r.length_score)) = some 0 ∧
    compute_length_scores zFc = [zL] ∧
    zL.length_score = 0 ∧ (0 : ℚ) ≠ 1 := by
  refine ⟨z_ul, by decide, z_ls, rfl, by norm_num⟩

/-- C8 (amended): every emitted length score lies in `[0, 1]`; when the
maximum raw span is positive, some pair scores exactly `1.0`; every
emitted row has more than one dated contribution; every pair key with
more than one dated contribution is emitted; and the combine stage reads
a missing length score as `0`. -/
theorem c8_length_normalization (fc : List ContributionRow) :
    (∀ row ∈ compute_length_scores fc,
      0 ≤ row.length_score ∧ row.length_score ≤ 1)
    ∧ (∀ m, listMaxInt ((compute_unnormalized_length fc).map
        (fun r => r.length_score)) = some m → 0 < m →
        ∃ row ∈ compute_length_scores fc, row.length_score = 1)
    ∧ (∀ row ∈ compute_length_scores fc,
        1 < ((datedRows fc).filter (fun r => decide (lengthKey r =
          (row.fec_committee_id, row.other_id, row.contributor_name,
            row.recipient_name)))).length)
    ∧ (∀ k, 1 < ((datedRows fc).filter
        (fun r => decide (lengthKey r = k))).length →
        ∃ row ∈ compute_length_scores fc,
          (row.fec_committee_id, row.other_id, row.contributor_name,
            row.recipient_name) = k)
    ∧ (∀ (es : List ExclusivityRow) (ls : List LengthScoreRow) (wE wL : ℚ),
        ∀ row ∈ compute_final_scores fc es ls wE wL,
          row.length_score = 0 ∨
            ∃ lrow ∈ ls, row.length_score = lrow.length_score) := by
  refine ⟨?_, ?_, ?_, ?_, ?_⟩
  · intro row hrow
    rcases mem_compute_length_scores.mp hrow with ⟨u, hu, heq⟩
    subst heq
    simp only
    have hnn : (0 : Int) ≤ u.length_score := unnormalized_length_nonneg hu
    have hne : (compute_unnormalized_length fc).map
        (fun r => r.length_score) ≠ [] := by
      simp only [ne_eq, List.map_eq_nil_iff]
      exact List.ne_nil_of_mem hu
    obtain ⟨m, hm⟩ := listMaxInt_isSome _ hne
    have hum : u.length_score ≤ m :=
      le_listMaxInt _ _ (List.mem_map_of_mem _ hu) m hm
    have hm0 : (0 : Int) ≤ m := le_trans hnn hum
    unfold max_length_value
    rw [hm]
    show 0 ≤ (u.length_score : ℚ) / (((if m = 0 then 1 else m) : Int) : ℚ) ∧
      (u.length_score : ℚ) / (((if m = 0 then 1 else m) : Int) : ℚ) ≤ 1
    by_cases hz : m = 0
    · have hu0 : u.length_score = 0 := le_antisymm (hz ▸ hum) hnn
      rw [if_pos hz, hu0]
      norm_num
    · rw [if_neg hz]
      have hmpos : (0 : Int) < m := lt_of_le_of_ne hm0 (Ne.symm hz)
      constructor
      · apply div_nonneg
        · exact_mod_cast hnn
        · exact_mod_cast le_of_lt hmpos
      · rw [div_le_one (by exact_mod_cast hmpos)]
        exact_mod_cast hum
  · intro m hm hmpos
    rcases List.mem_map.mp (listMaxInt_mem _ m hm) with ⟨u, hu, hueq⟩
    refine ⟨_, mem_compute_length_scores.mpr ⟨u, hu, rfl⟩, ?_⟩
    simp only
    unfold max_length_value
    rw [hm]
    show (u.length_score : ℚ) / (((if m = 0 then 1 else m) : Int) : ℚ) = 1
    rw [if_neg (by omega : m ≠ 0), hueq]
    exact div_self (by exact_mod_cast (by omega : m ≠ 0))
  · intro row hrow
    rcases mem_compute_length_scores.mp hrow with ⟨u, hu, heq⟩
    subst heq
    exact unnormalized_length_group hu
  · intro k hk
    have hne : ((datedRows fc).filter
        (fun r => decide (lengthKey r = k))) ≠ [] := by
      intro hnil
      rw [hnil] at hk
      simp at hk
    obtain ⟨r, hr⟩ := List.exists_mem_of_ne_nil _ hne
    rcases List.mem_filter.mp hr with ⟨hrd, hrk⟩
    have hkmem : k ∈ dedupKeys ((datedRows fc).map lengthKey) :=
      (mem_dedupKeys _ _).mpr
        (List.mem_map.mpr ⟨r, hrd, by simpa using hrk⟩)
    have hufilter : k ∈ (dedupKeys ((datedRows fc).map lengthKey)).filter
        (fun k2 => decide (1 < ((datedRows fc).filter
          (fun r => decide (lengthKey r = k2))).length)) :=
      List.mem_filter.mpr ⟨hkmem, by simpa using hk⟩
    have humem : unnormalizedLengthRowFor (datedRows fc) k ∈
        compute_unnormalized_length fc := by
      simp only [compute_unnormalized_length]
      exact List.mem_map_of_mem _ hufilter
    refine ⟨_, mem_compute_length_scores.mpr ⟨_, humem, rfl⟩, ?_⟩
    obtain ⟨a, b, c2, d⟩ := k
    rfl
  · intro es ls wE wL row hrow
    rcases mem_compute_final_scores.mp hrow with ⟨k, hk, heq⟩
    subst heq
    rcases List.mem_map.mp ((mem_dedupKeys _ _).mp hk) with ⟨j, hj, hkey⟩
    rcases (mem_final_join hj).2.2 with hnone | ⟨lrow, hlmem, hleq⟩
    · left
      rw [← hkey]
      simp [finalRowFor, finalKey, hnone, sqlCoalesceQ]
    · right
      refine ⟨lrow, hlmem, ?_⟩
      rw [← hkey]
      simp [finalRowFor, finalKey, hleq, sqlCoalesceQ]

/-- Witness for C8 at the hundred-day scenario: the max span is 100 days
and some pair scores exactly `1.0`. -/
theorem c8_length_normalization_witness :
    listMaxInt ((compute_unnormalized_length wFc).map
      (fun r => r.length_score)) = some 100 ∧
    (0 : Int) < 100 ∧
    ∃ row ∈ compute_length_scores wFc, row.length_score = 1 := by
  have h1 : listMaxInt ((compute_unnormalized_length wFc).map
      (fun r => r.length_score)) = some 100 := by decide
  exact ⟨h1, by decide, (c8_length_normalization wFc).2.1 100 h1 (by decide)⟩

/-- C9 (counterexample): the legacy ORM exclusivity stage appends its
totals (twice per call) instead of dropping and rebuilding, so running
it twice does not reproduce the state it left after one run. -/
theorem c9_counterexample :
    orm_compute_exclusivity_scores (orm_compute_exclusivity_scores ormDB) ≠
      orm_compute_exclusivity_scores ormDB := by
  decide

/-- C9 (amended): the filter is idempotent, and re-running the package
pipeline on unchanged base relations reproduces the identical state —
every derived relation is rebuilt from the same filtered input. -/
theorem c9_pipeline_idempotent (committees : List CommitteeRow)
    (raw : List ContributionRow) (s : DBState) (wE wL : ℚ) :
    load_from_committee_contributions committees
        (load_from_committee_contributions committees raw) =
      load_from_committee_contributions committees raw
    ∧ run_overall_pipeline wE wL (run_overall_pipeline wE wL s) =
        run_overall_pipeline wE wL s := by
  constructor
  · unfold load_from_committee_contributions
    rw [List.filter_filter]
    simp [Bool.and_self]
  · conv_lhs => rw [run_overall_pipeline, setup_after_run]
    rfl

/-- C10: a loaded committee is flagged as a Super PAC iff its
committee-type code is exactly `O`, and the Super PAC id set of a loaded
committee file is exactly the ids of its `O`-typed rows. -/
theorem c10_super_pac_flag (rows : List CommitteeCsvRow) :
    (∀ r : CommitteeCsvRow,
      ((load_committee_row r).is_super_pac = true ↔
        r.committee_type = some "O"))
    ∧ superPacIds (rows.map load_committee_row) =
        (rows.filter (fun r => decide (r.committee_type = some "O"))).map
          (fun r => r.fecid) := by
  constructor
  · intro r
    simp [load_committee_row]
  · simp only [superPacIds, List.filter_map, List.map_map]
    rfl
